import Mathlib

/-!
# Consul registration bootstrap of node_exporter

A shallow embedding of `src/init_consul.go` (the bootstrap `InitConsul`) and
`src/pkg/consul/consul.go` (the `ServiceDiscovery` component), followed by the
properties of the registration life cycle that are proved about them.

Conventions of the embedding:

* Go strings are Lean `String`s; Go `int` is the 64-bit signed integer (an `Int`
  kept in range by explicit wrap-around), `uint64` is a `Nat` below `2 ^ 64`.
* Everything the program asks of the outside (environment variables, the host,
  the Consul client library) is a field of `World`; every call that reaches the
  Consul client library is recorded, in order, in the `calls` of a `Run`.
* A Go function ends in one of three ways, the constructors of `Status`: it
  returns, it panics, or it ends the process with `os.Exit`.
-/

namespace Consul

/-! ## Go conversions between 64-bit integers -/

/-- Go conversion `uint64(x)` of a signed value: reduction modulo `2 ^ 64`. -/
def uint64 (x : Int) : Nat := (x % 2 ^ 64).toNat

/-- Go conversion `int(x)`, `int64(x)` of an unsigned 64-bit value, and the wrap-around
of a signed result: the representative of `x` modulo `2 ^ 64` in `[-2 ^ 63, 2 ^ 63)`. -/
def int64 (x : Int) : Int :=
  if x % 2 ^ 64 < 2 ^ 63 then x % 2 ^ 64 else x % 2 ^ 64 - 2 ^ 64

/-! ## `strings`: Split and Join -/

/-- Pieces of a character sequence between the occurrences of `sep`. -/
def splitOnChar (sep : Char) : List Char → List (List Char)
  | [] => [[]]
  | c :: cs =>
    if c = sep then [] :: splitOnChar sep cs
    else
      match splitOnChar sep cs with
      | [] => [[c]]
      | p :: ps => (c :: p) :: ps

/-- Go `strings.Split(s, sep)` for a separator of one ASCII character, the only use
the program makes of it (`strings.Split(ipPort, ":")`): the substrings between the
separators, one more than there are separators. -/
def strings.Split (s : String) (sep : Char) : List String :=
  (splitOnChar sep s.data).map String.mk

/-- Go `strings.Join(elems, sep)`. -/
def strings.Join (elems : List String) (sep : String) : String :=
  sep.intercalate elems

/-! ## `strconv.Atoi` -/

/-- The two errors of `strconv`: `ErrSyntax` and `ErrRange`. -/
inductive NumError where
  | ErrSyntax
  | ErrRange
deriving DecidableEq, Repr

/-- Value of a run of ASCII digits read left to right from the accumulator `acc`;
`none` when a character is not one of `0` .. `9`. -/
def parseDigits : List Char → Nat → Option Nat
  | [], acc => some acc
  | c :: cs, acc =>
    if c.isDigit then parseDigits cs (acc * 10 + (c.toNat - 48)) else none

/-- Unsigned part of `strconv.Atoi`: at least one digit, digits only. -/
def parseUnsigned (ds : List Char) : Except NumError Nat :=
  if ds = [] then Except.error NumError.ErrSyntax
  else
    match parseDigits ds 0 with
    | none => Except.error NumError.ErrSyntax
    | some n => Except.ok n

/-- Go `strconv.Atoi(s)` on a 64-bit platform: an optional sign `+` or `-`, then one
or more decimal digits and nothing else (`ErrSyntax` otherwise); the value has to
fit the 64-bit signed `int` (`ErrRange` otherwise). -/
def strconv.Atoi (s : String) : Except NumError Int :=
  match s.data with
  | '-' :: ds =>
    match parseUnsigned ds with
    | Except.error e => Except.error e
    | Except.ok n => if n ≤ 2 ^ 63 then Except.ok (-(n : Int)) else Except.error NumError.ErrRange
  | '+' :: ds =>
    match parseUnsigned ds with
    | Except.error e => Except.error e
    | Except.ok n => if n < 2 ^ 63 then Except.ok (n : Int) else Except.error NumError.ErrRange
  | ds =>
    match parseUnsigned ds with
    | Except.error e => Except.error e
    | Except.ok n => if n < 2 ^ 63 then Except.ok (n : Int) else Except.error NumError.ErrRange

/-! ## `fmt.Sprintf` -/

/-- Operands of `fmt.Sprintf` that the program passes: strings and `uint64`s. -/
inductive Arg where
  | str (s : String)
  | uint (n : Nat)

/-- Text that stands for a directive outside the modelled fragment of `Sprintf`. -/
def Sprintf.unmodelled : List Char := "%!(UNMODELLED)".data

/-- Expansion of a format, character by character. -/
def Sprintf.expand : List Char → List Arg → List Char
  | [], _ => []
  | '%' :: 's' :: rest, Arg.str s :: args => s.data ++ Sprintf.expand rest args
  | '%' :: 'd' :: rest, Arg.uint n :: args => Nat.toDigits 10 n ++ Sprintf.expand rest args
  | '%' :: _, _ => Sprintf.unmodelled
  | c :: rest, args => c :: Sprintf.expand rest args

/-- Go `fmt.Sprintf(format, args...)` on the fragment the program uses: literal text,
`%s` with a string operand (the string itself) and `%d` with a `uint64` operand (its
decimal digits, no sign, no padding). Any other directive ends the output with
`Sprintf.unmodelled`. -/
def fmt.Sprintf (format : String) (args : List Arg) : String :=
  String.mk (Sprintf.expand format.data args)

/-! ## `time.Duration` -/

/-- Go `time.Second`, in nanoseconds. -/
def time.Second : Int := 1000000000

/-- Go `time.Minute`, in nanoseconds. -/
def time.Minute : Int := 60 * time.Second

/-- Product of two `time.Duration`s (64-bit signed, wrapping). -/
def time.mul (a b : Int) : Int := int64 (a * b)

/-- Loop of `fmtFrac`: `i` iterations left, `print` tells whether a non-zero digit was
met; writing `buf[w]` after `w--` puts the character in front of `buf`. -/
def time.fmtFracLoop : Nat → List Char → Nat → Bool → List Char × Nat × Bool
  | 0, buf, v, print => (buf, v, print)
  | i + 1, buf, v, print =>
    let digit := v % 10
    let print := print || digit != 0
    time.fmtFracLoop i (if print then Nat.digitChar digit :: buf else buf) (v / 10) print

/-- Go `time.fmtFrac(buf, v, prec)`: the fraction of `v / 10 ^ prec` in front of `buf`
without trailing zeros (and without the point when the fraction is zero), and
`v / 10 ^ prec`. -/
def time.fmtFrac (buf : List Char) (v prec : Nat) : List Char × Nat :=
  match time.fmtFracLoop prec buf v false with
  | (buf, v, print) => (if print then '.' :: buf else buf, v)

/-- Go `time.fmtInt(buf, v)`: the decimal digits of `v` in front of `buf`. -/
def time.fmtInt (buf : List Char) (v : Nat) : List Char :=
  Nat.toDigits 10 v ++ buf

/-- Go `time.Duration.String()` of a duration of `d` nanoseconds, such as `72h3m0.5s`:
below one second the units `ns`, `µs`, `ms` are used, from one second on hours,
minutes and seconds, where leading zero units are left out. -/
def time.Duration.String (d : Int) : String :=
  let u := d.natAbs
  let body : List Char :=
    if u < 1000000000 then
      if u = 0 then ['0', 's']
      else if u < 1000 then
        match time.fmtFrac ['n', 's'] u 0 with
        | (buf, u) => time.fmtInt buf u
      else if u < 1000000 then
        match time.fmtFrac ['µ', 's'] u 3 with
        | (buf, u) => time.fmtInt buf u
      else
        match time.fmtFrac ['m', 's'] u 6 with
        | (buf, u) => time.fmtInt buf u
    else
      match time.fmtFrac ['s'] u 9 with
      | (buf, u) =>
        let buf := time.fmtInt buf (u % 60)
        let u := u / 60
        if u > 0 then
          let buf := time.fmtInt ('m' :: buf) (u % 60)
          let u := u / 60
          if u > 0 then time.fmtInt ('h' :: buf) u else buf
        else buf
  String.mk (if d < 0 then '-' :: body else body)

/-! ## Errors, outcomes and the trace of registry calls -/

/-- A Go `error` value that is not nil: a message, possibly wrapping a cause
(`xerrors.Errorf` with `%+v` or `%w`). A nil `error` is `none : Option Error`. -/
inductive Error where
  | msg (text : String)
  | wrap (text : String) (cause : Error)
deriving DecidableEq, Repr

/-- How a Go function ends: it returns a value, it panics, or it ends the process
with `os.Exit(code)`. -/
inductive Status (α : Type) where
  | returned (a : α)
  | panicked (msg : String)
  | exited (code : Nat)
deriving DecidableEq, Repr

/-- Go `api.KVPair`, reduced to the two fields the program sets or reads. -/
structure KVPair where
  Key : String
  Value : List UInt8
deriving DecidableEq, Repr

/-- Go `api.AgentServiceCheck`, reduced to the fields the program sets. -/
structure AgentServiceCheck where
  Interval : String
  HTTP : String
  DeregisterCriticalServiceAfter : String
deriving DecidableEq, Repr

/-- Go `api.AgentServiceRegistration`, reduced to the fields the program sets; `Meta`
is the Go map as the list of its entries, one per key. -/
structure AgentServiceRegistration where
  ID : String
  Name : String
  Tags : List String
  Port : Int
  Address : String
  Check : AgentServiceCheck
  Meta : List (String × String)
deriving DecidableEq, Repr

/-- A call that reaches the Consul client library. -/
inductive Call where
  | NewClient (address : String)
  | ServiceRegister (reg : AgentServiceRegistration)
  | ServiceDeregister (serviceID : String)
  | KVGet (key : String)
  | KVPut (pair : KVPair)
deriving DecidableEq, Repr

/-- The run of a Go function: how it ended and the registry calls it made, in order. -/
structure Run (α : Type) where
  status : Status α
  calls : List Call

/-- A run that returns `a` without a registry call. -/
def Run.ret {α : Type} (a : α) : Run α := ⟨Status.returned a, []⟩

/-- Sequencing: `k` runs on the value `r` returned; a panic or an exit of `r` ends
the whole run. -/
def Run.bind {α β : Type} (r : Run α) (k : α → Run β) : Run β :=
  match r.status with
  | Status.returned a => ⟨(k a).status, r.calls ++ (k a).calls⟩
  | Status.panicked m => ⟨Status.panicked m, r.calls⟩
  | Status.exited c => ⟨Status.exited c, r.calls⟩

/-- What the program asks of the outside: the environment, the host, and the answers
of the Consul client library (`none : Option Error` is a nil error). -/
structure World where
  /-- Go `os.Getenv`. -/
  Getenv : String → String
  /-- Error of `api.NewClient(&api.Config{Address: address})`. -/
  NewClient : String → Option Error
  /-- Go `os.Hostname()`. -/
  Hostname : Except Error String
  /-- Go `ffi.GetGPUDevices()`. -/
  GetGPUDevices : Except Error (List String)
  /-- Error of `sysinfo.Host()`. -/
  Host : Option Error
  /-- Go `h.Memory()`, the field `Total` of its result. -/
  Memory : Except Error Nat
  /-- Go `units.HumanSize(float64(total))`. -/
  HumanSize : Nat → String
  /-- Error of `agent.ServiceRegister(reg)`. -/
  ServiceRegister : AgentServiceRegistration → Option Error
  /-- Error of `agent.ServiceDeregister(serviceID)`. -/
  ServiceDeregister : String → Option Error
  /-- Go `kv.Get(key, nil)`: an error, or the entry, which is nil (`none`) when the
  registry has no entry under the key. -/
  KVGet : String → Except Error (Option KVPair)
  /-- Error of `kv.Put(pair, nil)`. -/
  KVPut : KVPair → Option Error

/-- Message of the Go runtime panic on a nil pointer. -/
def nilPointer : String := "runtime error: invalid memory address or nil pointer dereference"

/-- Go statement `m[k] = v` on a map kept as the list of its entries. -/
def mapSet (m : List (String × String)) (k v : String) : List (String × String) :=
  if m.any (fun e => e.1 == k) then m.map (fun e => if e.1 == k then (k, v) else e)
  else m ++ [(k, v)]

/-- Keys of a map kept as the list of its entries. -/
def mapKeys (m : List (String × String)) : List String := m.map Prod.fst

/-! ## `src/pkg/consul/consul.go` -/

/-- The constant `CONSUL_RUL`. -/
def CONSUL_RUL : String := "CONSUL_RUL"

/-- The struct `ServiceDiscovery`; `consulClient` is nil (`none`) until a client is
opened, and then holds the address the client was opened for. -/
structure ServiceDiscovery where
  ServerName : String
  ListenAddr : String
  ListenPort : Nat
  Interval : Nat
  DeRegister : Nat
  ConsulUrl : String
  EndPoint : String
  consulClient : Option String
deriving DecidableEq, Repr

/-- The method `InitConsul` of `ServiceDiscovery` (lines 47-63): the receiver after the
call, and the error returned. -/
def ServiceDiscovery.InitConsul (w : World) (s : ServiceDiscovery) :
    Run (ServiceDiscovery × Option Error) :=
  let withUrl : Option ServiceDiscovery :=
    if s.ConsulUrl = "" then
      let url := w.Getenv CONSUL_RUL
      if url = "" then none else some { s with ConsulUrl := url }
    else some s
  match withUrl with
  | none => ⟨Status.panicked "CONSUL_RUL env is required", []⟩
  | some s =>
    match w.NewClient s.ConsulUrl with
    | some err =>
      ⟨Status.returned ({ s with consulClient := none }, some err), [Call.NewClient s.ConsulUrl]⟩
    | none =>
      ⟨Status.returned ({ s with consulClient := some s.ConsulUrl }, none),
        [Call.NewClient s.ConsulUrl]⟩

/-- The function `NewServiceDiscovery` (lines 31-45); Go returns `(nil, err)` or
`(sd, nil)`. -/
def NewServiceDiscovery (w : World) (serverName listenAddr : String)
    (listenPort interval deRegister : Nat) (endPoint consulUrl : String) :
    Run (Except Error ServiceDiscovery) :=
  let sd : ServiceDiscovery :=
    { ServerName := serverName
      ListenAddr := listenAddr
      ListenPort := listenPort
      Interval := interval
      DeRegister := deRegister
      EndPoint := endPoint
      ConsulUrl := consulUrl
      consulClient := none }
  (ServiceDiscovery.InitConsul w sd).bind fun r =>
    match r with
    | (_, some err) => Run.ret (Except.error err)
    | (sd, none) => Run.ret (Except.ok sd)

/-- The method `ServiceRegistr` (lines 65-118). The call `agent.ServiceRegister(reg)`
on a nil client panics inside the client library before anything is sent. -/
def ServiceDiscovery.ServiceRegistr (w : World) (s : ServiceDiscovery) : Run (Option Error) :=
  let interval := time.mul (int64 s.Interval) time.Second
  let deRegister := time.mul (int64 s.DeRegister) time.Minute
  let check : AgentServiceCheck :=
    { Interval := time.Duration.String interval
      HTTP := fmt.Sprintf "http://%s:%d/%s"
        [Arg.str s.ListenAddr, Arg.uint s.ListenPort, Arg.str s.EndPoint]
      DeregisterCriticalServiceAfter := time.Duration.String deRegister }
  let mate : List (String × String) := []
  match w.Hostname with
  | Except.error err => Run.ret (some (Error.wrap "os get hostname failed" err))
  | Except.ok hostname =>
    let mate := mapSet mate "hostname" hostname
    match w.GetGPUDevices with
    | Except.error err => Run.ret (some (Error.wrap "getting gpu devices failed" err))
    | Except.ok gpus =>
      let mate := mapSet mate "gpus" (strings.Join gpus ",")
      match w.Host with
      | some err => Run.ret (some (Error.wrap "getting host info" err))
      | none =>
        match w.Memory with
        | Except.error err => Run.ret (some (Error.wrap "getting memory info" err))
        | Except.ok total =>
          let mate := mapSet mate "mem" (w.HumanSize total)
          let reg : AgentServiceRegistration :=
            { ID := fmt.Sprintf "%s-%s-%d"
                [Arg.str s.ServerName, Arg.str s.ListenAddr, Arg.uint s.ListenPort]
              Name := s.ServerName
              Tags := [s.ServerName]
              Port := int64 s.ListenPort
              Address := s.ListenAddr
              Check := check
              Meta := mate }
          match s.consulClient with
          | none => ⟨Status.panicked nilPointer, []⟩
          | some _ => ⟨Status.returned (w.ServiceRegister reg), [Call.ServiceRegister reg]⟩

/-- The method `ServiceDeregister` (lines 120-126). -/
def ServiceDiscovery.ServiceDeregister (w : World) (s : ServiceDiscovery) : Run (Option Error) :=
  let serviceID := fmt.Sprintf "%s-%s-%d"
    [Arg.str s.ServerName, Arg.str s.ListenAddr, Arg.uint s.ListenPort]
  match s.consulClient with
  | none => ⟨Status.panicked nilPointer, []⟩
  | some _ => ⟨Status.returned (w.ServiceDeregister serviceID), [Call.ServiceDeregister serviceID]⟩

/-- The method `GetKey` (lines 128-141). The caller's `result` is a value of a type
`ρ`; `unmarshal` is `json.Unmarshal(value, &result)`, giving the result after the
call and the error. The run returns the caller's result after the call with the
error. Reading `kvPair.Value` of a nil `kvPair` is a nil pointer dereference. -/
def ServiceDiscovery.GetKey {ρ : Type} (w : World) (unmarshal : List UInt8 → ρ → ρ × Option Error)
    (s : ServiceDiscovery) (key : String) (result : ρ) : Run (ρ × Option Error) :=
  match s.consulClient with
  | none => ⟨Status.panicked nilPointer, []⟩
  | some _ =>
    match w.KVGet key with
    | Except.error err => ⟨Status.returned (result, some err), [Call.KVGet key]⟩
    | Except.ok none => ⟨Status.panicked nilPointer, [Call.KVGet key]⟩
    | Except.ok (some kvPair) =>
      if kvPair.Value.length = 0 then
        ⟨Status.returned (result, some (Error.msg "kvPair value len is 0")), [Call.KVGet key]⟩
      else
        ⟨Status.returned (unmarshal kvPair.Value result), [Call.KVGet key]⟩

/-- The method `PutKey` (lines 143-149). -/
def ServiceDiscovery.PutKey (w : World) (s : ServiceDiscovery) (key : String)
    (val : List UInt8) : Run (Option Error) :=
  match s.consulClient with
  | none => ⟨Status.panicked nilPointer, []⟩
  | some _ => ⟨Status.returned (w.KVPut ⟨key, val⟩), [Call.KVPut ⟨key, val⟩]⟩

/-! ## `src/init_consul.go` -/

/-- The bootstrap `InitConsul` of package `main` from line 30 on, where `ip0` is
`ip[0]` and `port` the integer `strconv.Atoi` returned: the `ServiceDiscovery` is
created and registered, and an error of either step ends the process with status 1. -/
def InitConsul.register (w : World) (consulUrl serviceName ip0 : String) (port : Int) :
    Run Unit :=
  (NewServiceDiscovery w serviceName ip0 (uint64 port) 10 10 "ok" consulUrl).bind fun r =>
    match r with
    | Except.error _ => ⟨Status.exited 1, []⟩
    | Except.ok sd =>
      (ServiceDiscovery.ServiceRegistr w sd).bind fun err =>
        match err with
        | some _ => ⟨Status.exited 1, []⟩
        | none => Run.ret ()

/-- The bootstrap `InitConsul` of package `main` (lines 13-39). The test
`len(ip) != 2` is the match on a list of exactly two pieces `ip[0]`, `ip[1]`; the
lines written to the logger are not part of the run. -/
def InitConsul (w : World) (consulUrl serviceName ipPort : String) : Run Unit :=
  match strings.Split ipPort ':' with
  | [ip0, ip1] =>
    match strconv.Atoi ip1 with
    | Except.error _ => ⟨Status.exited 1, []⟩
    | Except.ok port => InitConsul.register w consulUrl serviceName ip0 port
  | _ => ⟨Status.exited 1, []⟩

/-- A world in which every request succeeds: the environment names the registry,
the host has the given name, devices and memory, the registry accepts everything
and stores nothing. -/
def World.allOk : World where
  Getenv := fun name => if name = CONSUL_RUL then "http://127.0.0.1:8500" else ""
  NewClient := fun _ => none
  Hostname := Except.ok "node-1"
  GetGPUDevices := Except.ok ["GeForce RTX 3090", "GeForce RTX 3080"]
  Host := none
  Memory := Except.ok 17179869184
  HumanSize := fun total => Nat.repr total ++ "B"
  ServiceRegister := fun _ => none
  ServiceDeregister := fun _ => none
  KVGet := fun _ => Except.ok none
  KVPut := fun _ => none

/-! ## Sample values and worlds -/

/-- A `ServiceDiscovery` as the bootstrap builds it for `miner` on `10.0.0.5:9090`,
with a client open. -/
def minerSD : ServiceDiscovery where
  ServerName := "miner"
  ListenAddr := "10.0.0.5"
  ListenPort := 9090
  Interval := 10
  DeRegister := 10
  ConsulUrl := "http://127.0.0.1:8500"
  EndPoint := "ok"
  consulClient := some "http://127.0.0.1:8500"

/-- The registration `ServiceRegistr` submits for `minerSD` in `World.allOk`. -/
def minerRegistration : AgentServiceRegistration where
  ID := "miner-10.0.0.5-9090"
  Name := "miner"
  Tags := ["miner"]
  Port := 9090
  Address := "10.0.0.5"
  Check :=
    { Interval := "10s"
      HTTP := "http://10.0.0.5:9090/ok"
      DeregisterCriticalServiceAfter := "10m0s" }
  Meta := [("hostname", "node-1"), ("gpus", "GeForce RTX 3090,GeForce RTX 3080"),
    ("mem", "17179869184B")]

/-- The registration of the empty service name on the empty address and port zero. -/
def emptyRegistration : AgentServiceRegistration :=
  { minerRegistration with
    ID := "--0"
    Name := ""
    Tags := [""]
    Port := 0
    Address := ""
    Check := { minerRegistration.Check with HTTP := "http://:0/ok" } }

/-- The bootstrap's `ServiceDiscovery` with an interval beyond what a
`time.Duration` holds in seconds. -/
def longIntervalSD : ServiceDiscovery := { minerSD with Interval := 18446744074 }

/-- Two instances with the service names `node-exporter` and `node`. -/
def exporterSD : ServiceDiscovery :=
  { minerSD with ServerName := "node-exporter", ListenAddr := "gpu-01" }

/-- The second of the two instances, on the address `exporter-gpu-01`. -/
def nodeSD : ServiceDiscovery :=
  { minerSD with ServerName := "node", ListenAddr := "exporter-gpu-01" }

/-- A world that differs from `World.allOk` in that the GPU devices cannot be
enumerated. -/
def World.noGPU : World :=
  { World.allOk with GetGPUDevices := Except.error (Error.msg "no OpenCL platform") }

/-- A world like `World.allOk` with an empty environment. -/
def World.noUrl : World := { World.allOk with Getenv := fun _ => "" }

/-- A world like `World.allOk` whose registry holds an empty value under every key. -/
def World.emptyValues : World :=
  { World.allOk with KVGet := fun key => Except.ok (some ⟨key, []⟩) }

/-! ## Notation of a whole number of seconds -/

/-- Go notation of a duration of `k` whole seconds: hours, minutes and seconds with
the leading zero units left out, as in `10s`, `10m0s`, `1h0m5s`. -/
def secondsNotation (k : Nat) : String :=
  if 3600 ≤ k then
    Nat.repr (k / 3600) ++ "h" ++ Nat.repr (k / 60 % 60) ++ "m" ++ Nat.repr (k % 60) ++ "s"
  else if 60 ≤ k then Nat.repr (k / 60) ++ "m" ++ Nat.repr (k % 60) ++ "s"
  else Nat.repr k ++ "s"

/-! ## Decimal digits -/

theorem toDigitsCore_append (f n : Nat) (ds : List Char) :
    Nat.toDigitsCore 10 f n ds = Nat.toDigitsCore 10 f n [] ++ ds := by
  induction f generalizing n ds with
  | zero => simp [Nat.toDigitsCore]
  | succ f ih =>
    simp only [Nat.toDigitsCore]
    split
    · simp
    · rw [ih, ih (n / 10) [Nat.digitChar (n % 10)]]
      simp

theorem toDigitsCore_fuel (f g n : Nat) (ds : List Char) (hf : n < f) (hg : n < g) :
    Nat.toDigitsCore 10 f n ds = Nat.toDigitsCore 10 g n ds := by
  induction f generalizing g n ds with
  | zero => omega
  | succ f ih =>
    cases g with
    | zero => omega
    | succ g =>
      simp only [Nat.toDigitsCore]
      split
      · rfl
      · rename_i h
        have h10 : n / 10 < n := Nat.div_lt_self (by omega) (by omega)
        exact ih g (n / 10) _ (by omega) (by omega)

theorem toDigits_small (n : Nat) (h : n < 10) : Nat.toDigits 10 n = [Nat.digitChar n] := by
  have h0 : n / 10 = 0 := by omega
  have h1 : n % 10 = n := by omega
  simp [Nat.toDigits, Nat.toDigitsCore, h0, h1]

theorem toDigits_step (n : Nat) (h : 10 ≤ n) :
    Nat.toDigits 10 n = Nat.toDigits 10 (n / 10) ++ [Nat.digitChar (n % 10)] := by
  have h0 : n / 10 ≠ 0 := by omega
  have h10 : n / 10 < n := Nat.div_lt_self (by omega) (by omega)
  have hn : Nat.toDigits 10 n = Nat.toDigitsCore 10 n (n / 10) [Nat.digitChar (n % 10)] := by
    rw [Nat.toDigits, Nat.toDigitsCore]
    simp only [h0, if_false]
  rw [hn, toDigitsCore_append, toDigitsCore_fuel n (n / 10 + 1) (n / 10) [] h10 (by omega)]
  rfl

theorem digitChar_isDigit (d : Nat) (h : d < 10) :
    (Nat.digitChar d).isDigit = true ∧ (Nat.digitChar d).toNat - 48 = d := by
  interval_cases d <;> exact ⟨by decide, by decide⟩

theorem toDigits_ne_nil (n : Nat) : Nat.toDigits 10 n ≠ [] := by
  by_cases h : n < 10
  · simp [toDigits_small n h]
  · rw [toDigits_step n (by omega)]
    simp

theorem toDigits_isDigit (n : Nat) : ∀ c ∈ Nat.toDigits 10 n, c.isDigit = true := by
  induction n using Nat.strong_induction_on with
  | _ n ih =>
    by_cases h : n < 10
    · intro c hc
      rw [toDigits_small n h] at hc
      simp only [List.mem_singleton] at hc
      exact hc ▸ (digitChar_isDigit n h).1
    · intro c hc
      rw [toDigits_step n (by omega)] at hc
      rcases List.mem_append.mp hc with hc | hc
      · exact ih (n / 10) (Nat.div_lt_self (by omega) (by omega)) c hc
      · simp only [List.mem_singleton] at hc
        exact hc ▸ (digitChar_isDigit (n % 10) (Nat.mod_lt _ (by omega))).1

theorem parseDigits_append (xs ys : List Char) (acc : Nat) :
    parseDigits (xs ++ ys) acc = (parseDigits xs acc).bind (parseDigits ys) := by
  induction xs generalizing acc with
  | nil => simp [parseDigits]
  | cons c cs ih =>
    simp only [List.cons_append, parseDigits]
    split
    · exact ih _
    · rfl

theorem parseDigits_toDigits (n : Nat) : parseDigits (Nat.toDigits 10 n) 0 = some n := by
  induction n using Nat.strong_induction_on with
  | _ n ih =>
    by_cases h : n < 10
    · rw [toDigits_small n h]
      simp [parseDigits, digitChar_isDigit n h]
    · have hd := digitChar_isDigit (n % 10) (Nat.mod_lt _ (by omega))
      rw [toDigits_step n (by omega), parseDigits_append,
        ih (n / 10) (Nat.div_lt_self (by omega) (by omega))]
      simp only [Option.some_bind, parseDigits, hd.1, hd.2, if_true]
      congr 1
      omega

theorem toDigits_injective (m n : Nat) (h : Nat.toDigits 10 m = Nat.toDigits 10 n) : m = n := by
  have hm := parseDigits_toDigits m
  rw [h, parseDigits_toDigits n] at hm
  exact (Option.some.inj hm).symm

theorem repr_data (n : Nat) : (Nat.repr n).data = Nat.toDigits 10 n := rfl

/-- No character of a decimal rendering is the character `c` when `c` is no digit. -/
theorem not_mem_toDigits (c : Char) (n : Nat) (hc : c.isDigit = false) :
    c ∉ Nat.toDigits 10 n := by
  intro hmem
  rw [toDigits_isDigit n c hmem] at hc
  exact absurd hc (by decide)

/-! ## Splitting, formatting and parsing -/

theorem splitOnChar_ne_nil (sep : Char) (l : List Char) : splitOnChar sep l ≠ [] := by
  cases l with
  | nil => simp [splitOnChar]
  | cons c cs =>
    simp only [splitOnChar]
    split
    · simp
    · split <;> simp

theorem splitOnChar_length (sep : Char) (l : List Char) :
    (splitOnChar sep l).length = l.count sep + 1 := by
  induction l with
  | nil => simp [splitOnChar]
  | cons c cs ih =>
    simp only [splitOnChar]
    by_cases h : c = sep
    · subst h
      simp [ih]
    · have hne : (c == sep) = false := by simpa using h
      rw [if_neg h, List.count_cons, hne]
      cases hs : splitOnChar sep cs with
      | nil => exact absurd hs (splitOnChar_ne_nil sep cs)
      | cons p ps =>
        rw [hs] at ih
        simpa using ih

theorem splitOnChar_of_not_mem (sep : Char) (l : List Char) (h : sep ∉ l) :
    splitOnChar sep l = [l] := by
  induction l with
  | nil => rfl
  | cons c cs ih =>
    have hc : c ≠ sep := fun e => h (e ▸ List.mem_cons_self _ _)
    have hcs : sep ∉ cs := fun e => h (List.mem_cons_of_mem _ e)
    simp [splitOnChar, hc, ih hcs]

theorem splitOnChar_append (sep : Char) (l r : List Char) (h : sep ∉ l) :
    splitOnChar sep (l ++ sep :: r) = l :: splitOnChar sep r := by
  induction l with
  | nil => simp [splitOnChar]
  | cons c cs ih =>
    have hc : c ≠ sep := fun e => h (e ▸ List.mem_cons_self _ _)
    have hcs : sep ∉ cs := fun e => h (List.mem_cons_of_mem _ e)
    simp [splitOnChar, hc, ih hcs]

theorem Split_length (s : String) (sep : Char) :
    (strings.Split s sep).length = s.data.count sep + 1 := by
  simp [strings.Split, splitOnChar_length]

theorem Split_host_port (host rest : String) (hh : ':' ∉ host.data) (hr : ':' ∉ rest.data) :
    strings.Split (host ++ ":" ++ rest) ':' = [host, rest] := by
  have hd : (host ++ ":" ++ rest).data = host.data ++ ':' :: rest.data := by
    simp [String.data_append]
  simp [strings.Split, hd, splitOnChar_append _ _ _ hh, splitOnChar_of_not_mem _ _ hr]

theorem Sprintf_id (name addr : String) (port : Nat) :
    fmt.Sprintf "%s-%s-%d" [Arg.str name, Arg.str addr, Arg.uint port]
      = name ++ "-" ++ addr ++ "-" ++ Nat.repr port := by
  apply String.ext
  simp [fmt.Sprintf, Sprintf.expand, String.data_append, repr_data]

theorem Sprintf_http (addr : String) (port : Nat) (endPoint : String) :
    fmt.Sprintf "http://%s:%d/%s" [Arg.str addr, Arg.uint port, Arg.str endPoint]
      = "http://" ++ addr ++ ":" ++ Nat.repr port ++ "/" ++ endPoint := by
  apply String.ext
  simp [fmt.Sprintf, Sprintf.expand, String.data_append, repr_data]

theorem parseUnsigned_toDigits (n : Nat) : parseUnsigned (Nat.toDigits 10 n) = Except.ok n := by
  simp [parseUnsigned, toDigits_ne_nil, parseDigits_toDigits]

theorem Atoi_repr (n : Nat) (h : n < 2 ^ 63) : strconv.Atoi (Nat.repr n) = Except.ok (n : Int) := by
  have hminus : '-' ∉ Nat.toDigits 10 n := not_mem_toDigits _ n (by decide)
  have hplus : '+' ∉ Nat.toDigits 10 n := not_mem_toDigits _ n (by decide)
  unfold strconv.Atoi
  rw [repr_data]
  split
  · rename_i ds hds
    exact absurd (hds ▸ List.mem_cons_self _ _) hminus
  · rename_i ds hds
    exact absurd (hds ▸ List.mem_cons_self _ _) hplus
  · simpa [parseUnsigned_toDigits] using h

/-! ## The register and deregister calls -/

/-- The registration `ServiceRegistr` builds from the receiver and the metadata read. -/
theorem ServiceRegistr_call (w : World) (s : ServiceDiscovery) (reg : AgentServiceRegistration)
    (h : Call.ServiceRegister reg ∈ (ServiceDiscovery.ServiceRegistr w s).calls) :
    ∃ hostname gpus total,
      w.Hostname = Except.ok hostname ∧ w.GetGPUDevices = Except.ok gpus ∧ w.Host = none ∧
      w.Memory = Except.ok total ∧
      reg =
        { ID := fmt.Sprintf "%s-%s-%d"
            [Arg.str s.ServerName, Arg.str s.ListenAddr, Arg.uint s.ListenPort]
          Name := s.ServerName
          Tags := [s.ServerName]
          Port := int64 s.ListenPort
          Address := s.ListenAddr
          Check :=
            { Interval := time.Duration.String (time.mul (int64 s.Interval) time.Second)
              HTTP := fmt.Sprintf "http://%s:%d/%s"
                [Arg.str s.ListenAddr, Arg.uint s.ListenPort, Arg.str s.EndPoint]
              DeregisterCriticalServiceAfter :=
                time.Duration.String (time.mul (int64 s.DeRegister) time.Minute) }
          Meta := mapSet (mapSet (mapSet [] "hostname" hostname) "gpus" (strings.Join gpus ","))
            "mem" (w.HumanSize total) } ∧
      ServiceDiscovery.ServiceRegistr w s
        = ⟨Status.returned (w.ServiceRegister reg), [Call.ServiceRegister reg]⟩ := by
  unfold ServiceDiscovery.ServiceRegistr at h ⊢
  cases hh : w.Hostname with
  | error e => simp [hh, Run.ret] at h
  | ok hostname =>
    cases hg : w.GetGPUDevices with
    | error e => simp [hh, hg, Run.ret] at h
    | ok gpus =>
      cases hho : w.Host with
      | some e => simp [hh, hg, hho, Run.ret] at h
      | none =>
        cases hm : w.Memory with
        | error e => simp [hh, hg, hho, hm, Run.ret] at h
        | ok total =>
          cases hc : s.consulClient with
          | none => simp [hh, hg, hho, hm, hc] at h
          | some c =>
            simp only [hh, hg, hho, hm, hc, List.mem_singleton, Call.ServiceRegister.injEq] at h
            subst h
            exact ⟨hostname, gpus, total, rfl, rfl, rfl, rfl, rfl, rfl⟩

/-- With a client and readable metadata `ServiceRegistr` makes exactly one call. -/
theorem ServiceRegistr_submits (w : World) (s : ServiceDiscovery) (client hostname : String)
    (gpus : List String) (total : Nat) (hc : s.consulClient = some client)
    (hh : w.Hostname = Except.ok hostname) (hg : w.GetGPUDevices = Except.ok gpus)
    (hho : w.Host = none) (hm : w.Memory = Except.ok total) :
    ∃ reg, ServiceDiscovery.ServiceRegistr w s
      = ⟨Status.returned (w.ServiceRegister reg), [Call.ServiceRegister reg]⟩ := by
  unfold ServiceDiscovery.ServiceRegistr
  simp only [hh, hg, hho, hm, hc]
  exact ⟨_, rfl⟩

/-- The key `ServiceDeregister` passes to the registry. -/
theorem ServiceDeregister_call (w : World) (s : ServiceDiscovery) (key : String)
    (h : Call.ServiceDeregister key ∈ (ServiceDiscovery.ServiceDeregister w s).calls) :
    key = fmt.Sprintf "%s-%s-%d"
      [Arg.str s.ServerName, Arg.str s.ListenAddr, Arg.uint s.ListenPort] := by
  unfold ServiceDiscovery.ServiceDeregister at h
  cases hc : s.consulClient with
  | none => simp [hc] at h
  | some c => simpa [hc] using h

/-! ## C1: one composite identity for registration and deregistration -/

/-- C1: every registration `ServiceRegistr` submits has as ID, and every key
`ServiceDeregister` passes is, the string `ServerName-ListenAddr-ListenPort` with the
port in decimal; with a client open `ServiceDeregister` passes that key, and with
readable metadata too `ServiceRegistr` submits a registration with that ID; hence a
registration of `s` and a deregistration of any `t` that agrees with `s` on the three
fields, in any world, use the same string, whatever the other fields are. -/
theorem C1_same_composite_identity (w : World) (s : ServiceDiscovery) :
    (∀ reg, Call.ServiceRegister reg ∈ (ServiceDiscovery.ServiceRegistr w s).calls →
      reg.ID = s.ServerName ++ "-" ++ s.ListenAddr ++ "-" ++ Nat.repr s.ListenPort) ∧
    (∀ key, Call.ServiceDeregister key ∈ (ServiceDiscovery.ServiceDeregister w s).calls →
      key = s.ServerName ++ "-" ++ s.ListenAddr ++ "-" ++ Nat.repr s.ListenPort) ∧
    (∀ client, s.consulClient = some client →
      (ServiceDiscovery.ServiceDeregister w s).calls = [Call.ServiceDeregister
        (s.ServerName ++ "-" ++ s.ListenAddr ++ "-" ++ Nat.repr s.ListenPort)]) ∧
    (∀ client hostname gpus total, s.consulClient = some client →
      w.Hostname = Except.ok hostname → w.GetGPUDevices = Except.ok gpus → w.Host = none →
      w.Memory = Except.ok total →
      ∃ reg, (ServiceDiscovery.ServiceRegistr w s).calls = [Call.ServiceRegister reg] ∧
        reg.ID = s.ServerName ++ "-" ++ s.ListenAddr ++ "-" ++ Nat.repr s.ListenPort) ∧
    (∀ (v : World) (t : ServiceDiscovery) reg key, t.ServerName = s.ServerName →
      t.ListenAddr = s.ListenAddr → t.ListenPort = s.ListenPort →
      Call.ServiceRegister reg ∈ (ServiceDiscovery.ServiceRegistr w s).calls →
      Call.ServiceDeregister key ∈ (ServiceDiscovery.ServiceDeregister v t).calls →
      reg.ID = key) := by
  have hreg : ∀ (s : ServiceDiscovery) reg,
      Call.ServiceRegister reg ∈ (ServiceDiscovery.ServiceRegistr w s).calls →
      reg.ID = s.ServerName ++ "-" ++ s.ListenAddr ++ "-" ++ Nat.repr s.ListenPort := by
    intro s reg h
    obtain ⟨_, _, _, _, _, _, _, hr, _⟩ := ServiceRegistr_call w s reg h
    rw [hr, Sprintf_id]
  have hkey : ∀ (v : World) (t : ServiceDiscovery) key,
      Call.ServiceDeregister key ∈ (ServiceDiscovery.ServiceDeregister v t).calls →
      key = t.ServerName ++ "-" ++ t.ListenAddr ++ "-" ++ Nat.repr t.ListenPort := by
    intro v t key h
    rw [ServiceDeregister_call v t key h, Sprintf_id]
  refine ⟨hreg s, hkey w s, ?_, ?_, ?_⟩
  · intro client hc
    simp [ServiceDiscovery.ServiceDeregister, hc, Sprintf_id]
  · intro client hostname gpus total hc hh hg hho hm
    obtain ⟨reg, hrun⟩ := ServiceRegistr_submits w s client hostname gpus total hc hh hg hho hm
    refine ⟨reg, by rw [hrun], ?_⟩
    exact hreg s reg (by rw [hrun]; exact List.mem_singleton_self _)
  · intro v t reg key h1 h2 h3 hr hk
    rw [hreg s reg hr, hkey v t key hk, h1, h2, h3]

/-- C1 at `minerSD`: the one deregistration call carries `miner-10.0.0.5-9090`. -/
theorem C1_same_composite_identity_witness :
    (ServiceDiscovery.ServiceDeregister World.allOk minerSD).calls
      = [Call.ServiceDeregister "miner-10.0.0.5-9090"] :=
  (C1_same_composite_identity World.allOk minerSD).2.2.1 "http://127.0.0.1:8500" rfl

/-! ## C8: no registration with partial metadata -/

/-- C8: when the host name, the GPU devices, the host info or the memory cannot be
read, `ServiceRegistr` returns an error that is not nil and calls the registry not at
all; every registration it submits carries a metadata map whose keys are exactly
`hostname`, `gpus` and `mem`; and with a client and readable metadata it does submit
one. -/
theorem C8_no_partial_metadata (w : World) (s : ServiceDiscovery) :
    (((∃ e, w.Hostname = Except.error e) ∨ (∃ e, w.GetGPUDevices = Except.error e) ∨
        (∃ e, w.Host = some e) ∨ (∃ e, w.Memory = Except.error e)) →
      ∃ err, ServiceDiscovery.ServiceRegistr w s = ⟨Status.returned (some err), []⟩) ∧
    (∀ reg, Call.ServiceRegister reg ∈ (ServiceDiscovery.ServiceRegistr w s).calls →
      mapKeys reg.Meta = ["hostname", "gpus", "mem"]) ∧
    (∀ client hostname gpus total, s.consulClient = some client →
      w.Hostname = Except.ok hostname → w.GetGPUDevices = Except.ok gpus → w.Host = none →
      w.Memory = Except.ok total →
      ∃ reg, (ServiceDiscovery.ServiceRegistr w s).calls = [Call.ServiceRegister reg] ∧
        mapKeys reg.Meta = ["hostname", "gpus", "mem"]) := by
  have hkeys : ∀ reg, Call.ServiceRegister reg ∈ (ServiceDiscovery.ServiceRegistr w s).calls →
      mapKeys reg.Meta = ["hostname", "gpus", "mem"] := by
    intro reg h
    obtain ⟨hostname, gpus, total, _, _, _, _, hr, _⟩ := ServiceRegistr_call w s reg h
    rw [hr]
    simp [mapKeys, mapSet]
  refine ⟨?_, hkeys, ?_⟩
  · intro hfail
    unfold ServiceDiscovery.ServiceRegistr
    cases hh : w.Hostname with
    | error e => exact ⟨_, rfl⟩
    | ok hostname =>
      cases hg : w.GetGPUDevices with
      | error e => exact ⟨_, rfl⟩
      | ok gpus =>
        cases hho : w.Host with
        | some e => exact ⟨_, rfl⟩
        | none =>
          cases hm : w.Memory with
          | error e => exact ⟨_, rfl⟩
          | ok total =>
            rcases hfail with ⟨e, he⟩ | ⟨e, he⟩ | ⟨e, he⟩ | ⟨e, he⟩
            · rw [hh] at he; cases he
            · rw [hg] at he; cases he
            · rw [hho] at he; cases he
            · rw [hm] at he; cases he
  · intro client hostname gpus total hc hh hg hho hm
    obtain ⟨reg, hrun⟩ := ServiceRegistr_submits w s client hostname gpus total hc hh hg hho hm
    exact ⟨reg, by rw [hrun], hkeys reg (by rw [hrun]; exact List.mem_singleton_self _)⟩

/-- C8 in `World.noGPU`: `ServiceRegistr` returns an error and registers nothing. -/
theorem C8_no_partial_metadata_witness :
    ∃ err, ServiceDiscovery.ServiceRegistr World.noGPU minerSD
      = ⟨Status.returned (some err), []⟩ :=
  (C8_no_partial_metadata World.noGPU minerSD).1 (Or.inr (Or.inl ⟨_, rfl⟩))

/-! ## C4: the health check -/

/-- The hours, minutes and seconds `secondsNotation k` prints add up to `k` seconds. -/
theorem secondsNotation_parts (k : Nat) :
    3600 * (k / 3600) + 60 * (k / 60 % 60) + k % 60 = k ∧ k / 60 % 60 < 60 ∧ k % 60 < 60 ∧
      (k < 3600 → k / 60 % 60 = k / 60) ∧ (k < 60 → k % 60 = k) := by
  refine ⟨by omega, by omega, by omega, fun h => by omega, fun h => by omega⟩

theorem int64_of_small (x : Int) (h0 : 0 ≤ x) (h1 : x < 2 ^ 63) : int64 x = x := by
  have hm : x % 2 ^ 64 = x := Int.emod_eq_of_lt h0 (by omega)
  simp only [int64, hm]
  rw [if_pos h1]

theorem fmtFracLoop_mul (p : Nat) (buf : List Char) (v : Nat) :
    time.fmtFracLoop p buf (v * 10 ^ p) false = (buf, v, false) := by
  induction p generalizing buf v with
  | zero => simp [time.fmtFracLoop]
  | succ p ih =>
    have h1 : v * 10 ^ (p + 1) % 10 = 0 := by
      rw [pow_succ, ← Nat.mul_assoc]
      exact Nat.mul_mod_left _ _
    have h2 : v * 10 ^ (p + 1) / 10 = v * 10 ^ p := by
      rw [pow_succ, ← Nat.mul_assoc]
      exact Nat.mul_div_cancel _ (by omega)
    simp only [time.fmtFracLoop, h1, h2]
    simpa using ih buf v

theorem Duration_String_seconds (k : Nat) :
    time.Duration.String ((k : Int) * 1000000000) = secondsNotation k := by
  have habs : ((k : Int) * 1000000000).natAbs = k * 10 ^ 9 := by
    rw [Int.natAbs_mul]
    simp
  have hneg : ¬ ((k : Int) * 1000000000 < 0) := by omega
  have hfrac : time.fmtFrac ['s'] (k * 10 ^ 9) 9 = (['s'], k) := by
    simp only [time.fmtFrac, fmtFracLoop_mul]
    rfl
  unfold time.Duration.String
  simp only [habs, hneg, if_false]
  by_cases hk : k = 0
  · subst hk
    rfl
  · have hbig : ¬ (k * 10 ^ 9 < 1000000000) := by omega
    simp only [hbig, if_false, hfrac, time.fmtInt, secondsNotation]
    by_cases h60 : 60 ≤ k
    · have hm : k / 60 > 0 := Nat.div_pos h60 (by omega)
      by_cases h3600 : 3600 ≤ k
      · have hh : k / 60 / 60 > 0 := by omega
        have hdiv : k / 60 / 60 = k / 3600 := by omega
        have hh2 : k / 3600 > 0 := by omega
        simp only [hm, hh, hh2, if_true, h3600, hdiv]
        apply String.ext
        simp [String.data_append, repr_data]
      · have hh : ¬ (k / 60 / 60 > 0) := by omega
        have hmod : k / 60 % 60 = k / 60 := by omega
        simp only [hm, hh, if_true, if_false, h3600, h60, hmod]
        apply String.ext
        simp [String.data_append, repr_data]
    · have hm : ¬ (k / 60 > 0) := by omega
      have h3600 : ¬ (3600 ≤ k) := by omega
      have hmod : k % 60 = k := by omega
      simp only [hm, if_false, h3600, h60, hmod]
      apply String.ext
      simp [String.data_append, repr_data]

theorem mul_Second (k : Nat) (h : k ≤ 9223372036) :
    time.mul (int64 k) time.Second = (k : Int) * 1000000000 := by
  rw [int64_of_small k (by omega) (by omega)]
  exact int64_of_small _ (by simp only [time.Second]; omega) (by simp only [time.Second]; omega)

theorem mul_Minute (k : Nat) (h : k ≤ 153722867) :
    time.mul (int64 k) time.Minute = ((60 * k : Nat) : Int) * 1000000000 := by
  rw [int64_of_small k (by omega) (by omega)]
  have hv : (k : Int) * time.Minute = ((60 * k : Nat) : Int) * 1000000000 := by
    simp only [time.Minute, time.Second]
    push_cast
    ring
  unfold time.mul
  rw [hv]
  exact int64_of_small _ (by omega) (by push_cast; omega)

/-- C4 fails as stated: for the interval 18446744074 (a `uint64`) the product with
`time.Second` wraps around, and the check submitted polls every `290.448384ms`, where
18446744074 seconds are `5124095h34m34s`. -/
theorem C4_interval_wraps :
    (ServiceDiscovery.ServiceRegistr World.allOk longIntervalSD).calls
        = [Call.ServiceRegister { minerRegistration with
            Check := { minerRegistration.Check with Interval := "290.448384ms" } }] ∧
      secondsNotation longIntervalSD.Interval = "5124095h34m34s" ∧
      ¬ (∀ reg, Call.ServiceRegister reg ∈
            (ServiceDiscovery.ServiceRegistr World.allOk longIntervalSD).calls →
          reg.Check.Interval = secondsNotation longIntervalSD.Interval) := by
  refine ⟨by decide, by decide, ?_⟩
  intro h
  have h2 := h { minerRegistration with
    Check := { minerRegistration.Check with Interval := "290.448384ms" } } (by decide)
  revert h2
  decide

/-- C4, amended: the health check of every registration `ServiceRegistr` submits has
the HTTP URL `http://ListenAddr:ListenPort/EndPoint` with the port in decimal; its
interval is the Go notation of `Interval` seconds when `Interval` is at most
9223372036, and its deregister-critical-after is the Go notation of `DeRegister`
minutes when `DeRegister` is at most 153722867 (the products that fit a
`time.Duration`). -/
theorem C4_health_check (w : World) (s : ServiceDiscovery) (reg : AgentServiceRegistration)
    (hreg : Call.ServiceRegister reg ∈ (ServiceDiscovery.ServiceRegistr w s).calls) :
    reg.Check.HTTP
        = "http://" ++ s.ListenAddr ++ ":" ++ Nat.repr s.ListenPort ++ "/" ++ s.EndPoint ∧
      (s.Interval ≤ 9223372036 → reg.Check.Interval = secondsNotation s.Interval) ∧
      (s.DeRegister ≤ 153722867 →
        reg.Check.DeregisterCriticalServiceAfter = secondsNotation (60 * s.DeRegister)) := by
  obtain ⟨_, _, _, _, _, _, _, hr, _⟩ := ServiceRegistr_call w s reg hreg
  rw [hr]
  refine ⟨Sprintf_http _ _ _, ?_, ?_⟩
  · intro h
    show time.Duration.String (time.mul (int64 s.Interval) time.Second) = _
    rw [mul_Second _ h, Duration_String_seconds]
  · intro h
    show time.Duration.String (time.mul (int64 s.DeRegister) time.Minute) = _
    rw [mul_Minute _ h, Duration_String_seconds]

/-- C4 at the bootstrap's values 10, 10 and `ok`: the check of `minerRegistration`. -/
theorem C4_health_check_witness :
    minerRegistration.Check.HTTP = "http://10.0.0.5:9090/ok" ∧
      minerRegistration.Check.Interval = "10s" ∧
      minerRegistration.Check.DeregisterCriticalServiceAfter = "10m0s" ∧
      Call.ServiceRegister minerRegistration
        ∈ (ServiceDiscovery.ServiceRegistr World.allOk minerSD).calls :=
  have h := C4_health_check World.allOk minerSD minerRegistration (by decide)
  ⟨h.1, h.2.1 (by decide), h.2.2 (by decide), by decide⟩

/-! ## Creation and the bootstrap -/

/-- Without a registry URL, neither passed nor in the environment,
`NewServiceDiscovery` panics before any call. -/
theorem NewServiceDiscovery_no_url (w : World) (serverName listenAddr : String)
    (listenPort interval deRegister : Nat) (endPoint : String)
    (henv : w.Getenv CONSUL_RUL = "") :
    NewServiceDiscovery w serverName listenAddr listenPort interval deRegister endPoint ""
      = ⟨Status.panicked "CONSUL_RUL env is required", []⟩ := by
  simp [NewServiceDiscovery, ServiceDiscovery.InitConsul, henv, Run.bind]

/-- With a registry URL `u`, passed or else taken from the environment,
`NewServiceDiscovery` opens a client for `u` and looks at nothing else: it returns the
error of `api.NewClient`, or the `ServiceDiscovery` of its arguments. -/
theorem NewServiceDiscovery_url (w : World) (serverName listenAddr : String)
    (listenPort interval deRegister : Nat) (endPoint consulUrl u : String)
    (hu : (if consulUrl = "" then w.Getenv CONSUL_RUL else consulUrl) = u) (hne : u ≠ "") :
    NewServiceDiscovery w serverName listenAddr listenPort interval deRegister endPoint consulUrl
      = ⟨Status.returned
          (match w.NewClient u with
            | some err => Except.error err
            | none => Except.ok
              { ServerName := serverName
                ListenAddr := listenAddr
                ListenPort := listenPort
                Interval := interval
                DeRegister := deRegister
                ConsulUrl := u
                EndPoint := endPoint
                consulClient := some u }),
          [Call.NewClient u]⟩ := by
  by_cases hc : consulUrl = ""
  · rw [if_pos hc] at hu
    subst hu
    cases hn : w.NewClient (w.Getenv CONSUL_RUL) <;>
      simp [NewServiceDiscovery, ServiceDiscovery.InitConsul, hc, hne, hn, Run.bind, Run.ret]
  · rw [if_neg hc] at hu
    subst hu
    cases hn : w.NewClient consulUrl <;>
      simp [NewServiceDiscovery, ServiceDiscovery.InitConsul, hc, hn, Run.bind, Run.ret]

/-- The three ways the bootstrap can go once address and port are parsed. -/
theorem register_cases (w : World) (consulUrl serviceName ip0 : String) (port : Int) :
    InitConsul.register w consulUrl serviceName ip0 port
        = ⟨Status.panicked "CONSUL_RUL env is required", []⟩ ∨
      (∃ u, InitConsul.register w consulUrl serviceName ip0 port
        = ⟨Status.exited 1, [Call.NewClient u]⟩) ∨
      (∃ u, u ≠ "" ∧ (if consulUrl = "" then w.Getenv CONSUL_RUL else consulUrl) = u ∧
        w.NewClient u = none ∧
        InitConsul.register w consulUrl serviceName ip0 port
          = (⟨Status.returned (), [Call.NewClient u]⟩ : Run Unit).bind fun _ =>
            (ServiceDiscovery.ServiceRegistr w
              { ServerName := serviceName
                ListenAddr := ip0
                ListenPort := uint64 port
                Interval := 10
                DeRegister := 10
                ConsulUrl := u
                EndPoint := "ok"
                consulClient := some u }).bind fun err =>
              match err with
              | some _ => ⟨Status.exited 1, []⟩
              | none => Run.ret ()) := by
  by_cases hne : (if consulUrl = "" then w.Getenv CONSUL_RUL else consulUrl) = ""
  · left
    by_cases hc : consulUrl = ""
    · rw [if_pos hc] at hne
      subst hc
      simp [InitConsul.register, NewServiceDiscovery_no_url _ _ _ _ _ _ _ hne, Run.bind]
    · rw [if_neg hc] at hne
      exact absurd hne hc
  · right
    generalize hu : (if consulUrl = "" then w.Getenv CONSUL_RUL else consulUrl) = u at hne
    have hrun := NewServiceDiscovery_url w serviceName ip0 (uint64 port) 10 10 "ok" consulUrl u
      hu hne
    cases hn : w.NewClient u with
    | some err =>
      left
      rw [hn] at hrun
      exact ⟨u, by simp [InitConsul.register, hrun, Run.bind]⟩
    | none =>
      right
      rw [hn] at hrun
      exact ⟨u, hne, rfl, hn, by simp [InitConsul.register, hrun, Run.bind]⟩

/-- A registration the bootstrap submits is one `ServiceRegistr` submits for the
`ServiceDiscovery` made of the service name, `ip[0]`, `uint64(port)` and the
constants 10, 10 and `ok`. -/
theorem register_call (w : World) (consulUrl serviceName ip0 : String) (port : Int)
    (reg : AgentServiceRegistration)
    (h : Call.ServiceRegister reg ∈ (InitConsul.register w consulUrl serviceName ip0 port).calls) :
    ∃ u, Call.ServiceRegister reg ∈ (ServiceDiscovery.ServiceRegistr w
      { ServerName := serviceName
        ListenAddr := ip0
        ListenPort := uint64 port
        Interval := 10
        DeRegister := 10
        ConsulUrl := u
        EndPoint := "ok"
        consulClient := some u }).calls := by
  rcases register_cases w consulUrl serviceName ip0 port with hr | ⟨u, hr⟩ | ⟨u, _, _, _, hr⟩
  · rw [hr] at h
    simp at h
  · rw [hr] at h
    simp at h
  · refine ⟨u, ?_⟩
    rw [hr] at h
    simp only [Run.bind] at h
    generalize hS : ServiceDiscovery.ServiceRegistr w _ = S at h ⊢
    rcases S with ⟨st, cs⟩
    cases st with
    | returned a => cases a <;> simpa [Run.ret] using h
    | panicked m => simpa using h
    | exited c => simpa using h

/-- With a registry URL `u`, a client that opens and readable metadata, the bootstrap
opens the client and submits one registration. -/
theorem register_submits (w : World) (consulUrl serviceName ip0 : String) (port : Int)
    (u hostname : String) (gpus : List String) (total : Nat)
    (hu : (if consulUrl = "" then w.Getenv CONSUL_RUL else consulUrl) = u) (hne : u ≠ "")
    (hnew : w.NewClient u = none) (hhost : w.Hostname = Except.ok hostname)
    (hg : w.GetGPUDevices = Except.ok gpus) (hho : w.Host = none)
    (hm : w.Memory = Except.ok total) :
    ∃ reg, (InitConsul.register w consulUrl serviceName ip0 port).calls
      = [Call.NewClient u, Call.ServiceRegister reg] := by
  have hrun := NewServiceDiscovery_url w serviceName ip0 (uint64 port) 10 10 "ok"
    consulUrl u hu hne
  rw [hnew] at hrun
  obtain ⟨reg, hsub⟩ := ServiceRegistr_submits w
    { ServerName := serviceName
      ListenAddr := ip0
      ListenPort := uint64 port
      Interval := 10
      DeRegister := 10
      ConsulUrl := u
      EndPoint := "ok"
      consulClient := some u } u hostname gpus total rfl hhost hg hho hm
  refine ⟨reg, ?_⟩
  simp only [InitConsul.register, hrun, Run.bind, hsub]
  cases w.ServiceRegister reg <;> simp [Run.ret]

/-- The bootstrap on `host:text` with no colon in `host` or `text` and `text` an
integer is the bootstrap from line 30 on with that host and integer. -/
theorem InitConsul_parsed (w : World) (consulUrl serviceName host text : String) (p : Int)
    (hh : ':' ∉ host.data) (ht : ':' ∉ text.data) (hp : strconv.Atoi text = Except.ok p) :
    InitConsul w consulUrl serviceName (host ++ ":" ++ text)
      = InitConsul.register w consulUrl serviceName host p := by
  simp [InitConsul, Split_host_port host text hh ht, hp]

theorem uint64_of_nat (n : Nat) (h : n < 2 ^ 64) : uint64 (n : Int) = n := by
  have hm : (n : Int) % 2 ^ 64 = (n : Int) := Int.emod_eq_of_lt (by omega) (by omega)
  unfold uint64
  rw [hm]
  exact Int.toNat_ofNat n

/-- What `NewServiceDiscovery` returns when it returns a `ServiceDiscovery`. -/
theorem NewServiceDiscovery_ok (w : World) (serverName listenAddr : String)
    (listenPort interval deRegister : Nat) (endPoint consulUrl : String) (sd : ServiceDiscovery)
    (h : (NewServiceDiscovery w serverName listenAddr listenPort interval deRegister endPoint
      consulUrl).status = Status.returned (Except.ok sd)) :
    ∃ u, u ≠ "" ∧ w.NewClient u = none ∧ sd =
      { ServerName := serverName
        ListenAddr := listenAddr
        ListenPort := listenPort
        Interval := interval
        DeRegister := deRegister
        ConsulUrl := u
        EndPoint := endPoint
        consulClient := some u } := by
  by_cases hne : (if consulUrl = "" then w.Getenv CONSUL_RUL else consulUrl) = ""
  · by_cases hc : consulUrl = ""
    · rw [if_pos hc] at hne
      subst hc
      rw [NewServiceDiscovery_no_url _ _ _ _ _ _ _ hne] at h
      simp at h
    · rw [if_neg hc] at hne
      exact absurd hne hc
  · generalize hu : (if consulUrl = "" then w.Getenv CONSUL_RUL else consulUrl) = u at hne
    rw [NewServiceDiscovery_url w _ _ _ _ _ _ consulUrl u hu hne] at h
    cases hn : w.NewClient u with
    | some err => simp [hn] at h
    | none =>
      simp only [hn, Status.returned.injEq, Except.ok.injEq] at h
      exact ⟨u, hne, hn, h.symm⟩

/-! ## C2: a malformed `ipPort` ends the process -/

/-- C2: when `ipPort` has no `:` or more than one, or is `host:text` with a single `:`
and a `text` that `strconv.Atoi` rejects, the bootstrap ends the process with exit
status 1 and has made no call: no client was opened, nothing was registered. -/
theorem C2_malformed_ipPort_exits (w : World) (consulUrl serviceName ipPort : String)
    (h : ipPort.data.count ':' ≠ 1 ∨
      ∃ host text e, ipPort = host ++ ":" ++ text ∧ ':' ∉ host.data ∧ ':' ∉ text.data ∧
        strconv.Atoi text = Except.error e) :
    InitConsul w consulUrl serviceName ipPort = ⟨Status.exited 1, []⟩ := by
  rcases h with h | ⟨host, text, e, rfl, hh, ht, he⟩
  · unfold InitConsul
    split
    · rename_i ip0 ip1 hs
      have hl := Split_length ipPort ':'
      rw [hs] at hl
      simp only [List.length_cons, List.length_nil] at hl
      omega
    · rfl
  · simp [InitConsul, Split_host_port host text hh ht, he]

/-- C2 on an `ipPort` without a port, with two colons, and with a port that is no
number. -/
theorem C2_malformed_ipPort_exits_witness :
    InitConsul World.allOk "" "miner" "10.0.0.5" = ⟨Status.exited 1, []⟩ ∧
      InitConsul World.allOk "" "miner" "10.0.0.5:90:90" = ⟨Status.exited 1, []⟩ ∧
      InitConsul World.allOk "" "miner" "10.0.0.5:http" = ⟨Status.exited 1, []⟩ :=
  ⟨C2_malformed_ipPort_exits World.allOk "" "miner" "10.0.0.5" (Or.inl (by decide)),
    C2_malformed_ipPort_exits World.allOk "" "miner" "10.0.0.5:90:90" (Or.inl (by decide)),
    C2_malformed_ipPort_exits World.allOk "" "miner" "10.0.0.5:http"
      (Or.inr ⟨"10.0.0.5", "http", NumError.ErrSyntax, rfl, by decide, by decide, rfl⟩)⟩

/-! ## C3: host and port reach the registration -/

/-- C3: for a `host` without `:` and a port number `n` (below `2 ^ 63`, which covers
the 16-bit ports) written in decimal, the bootstrap splits `host:n` into `host` and
the text of `n`, reads `n` back, and goes on with `NewServiceDiscovery` on the service
name, `host` and `n`; a `ServiceDiscovery` created has `ListenAddr = host` and
`ListenPort = n`; every registration submitted has the ID `serviceName-host-n`, and
one is submitted when the client opens and the metadata can be read. -/
theorem C3_bootstrap_host_port (w : World) (consulUrl serviceName host : String) (n : Nat)
    (hh : ':' ∉ host.data) (hn : n < 2 ^ 63) :
    strings.Split (host ++ ":" ++ Nat.repr n) ':' = [host, Nat.repr n] ∧
      strconv.Atoi (Nat.repr n) = Except.ok (n : Int) ∧
      uint64 (n : Int) = n ∧
      InitConsul w consulUrl serviceName (host ++ ":" ++ Nat.repr n)
        = InitConsul.register w consulUrl serviceName host n ∧
      (∀ sd, (NewServiceDiscovery w serviceName host (uint64 (n : Int)) 10 10 "ok"
            consulUrl).status = Status.returned (Except.ok sd) →
          sd.ServerName = serviceName ∧ sd.ListenAddr = host ∧ sd.ListenPort = n) ∧
      (∀ reg, Call.ServiceRegister reg
            ∈ (InitConsul w consulUrl serviceName (host ++ ":" ++ Nat.repr n)).calls →
          reg.ID = serviceName ++ "-" ++ host ++ "-" ++ Nat.repr n) ∧
      (∀ u hostname gpus total,
          (if consulUrl = "" then w.Getenv CONSUL_RUL else consulUrl) = u → u ≠ "" →
          w.NewClient u = none → w.Hostname = Except.ok hostname →
          w.GetGPUDevices = Except.ok gpus → w.Host = none → w.Memory = Except.ok total →
          ∃ reg, (InitConsul w consulUrl serviceName (host ++ ":" ++ Nat.repr n)).calls
              = [Call.NewClient u, Call.ServiceRegister reg] ∧
            reg.ID = serviceName ++ "-" ++ host ++ "-" ++ Nat.repr n) := by
  have hcolon : ':' ∉ (Nat.repr n).data := not_mem_toDigits _ n (by decide)
  have hu64 : uint64 (n : Int) = n := uint64_of_nat n (by omega)
  have hparsed := InitConsul_parsed w consulUrl serviceName host (Nat.repr n) n hh hcolon
    (Atoi_repr n hn)
  have hid : ∀ reg, Call.ServiceRegister reg
        ∈ (InitConsul w consulUrl serviceName (host ++ ":" ++ Nat.repr n)).calls →
      reg.ID = serviceName ++ "-" ++ host ++ "-" ++ Nat.repr n := by
    intro reg hreg
    rw [hparsed] at hreg
    obtain ⟨u, hcall⟩ := register_call w consulUrl serviceName host n reg hreg
    obtain ⟨_, _, _, _, _, _, _, hr, _⟩ := ServiceRegistr_call w _ reg hcall
    rw [hr, Sprintf_id, hu64]
  refine ⟨Split_host_port host _ hh hcolon, Atoi_repr n hn, hu64, hparsed, ?_, hid, ?_⟩
  · intro sd hsd
    obtain ⟨u, _, _, rfl⟩ := NewServiceDiscovery_ok w _ _ _ _ _ _ _ sd hsd
    exact ⟨rfl, rfl, hu64⟩
  · intro u hostname gpus total hu hne hnew hhost hg hho hm
    obtain ⟨reg, hcalls⟩ := register_submits w consulUrl serviceName host n u hostname gpus
      total hu hne hnew hhost hg hho hm
    rw [← hparsed] at hcalls
    exact ⟨reg, hcalls, hid reg (by rw [hcalls]; simp)⟩

/-- C3 on the spec's scenario: address and port `10.0.0.5:9090`, server name `miner`. -/
theorem C3_bootstrap_host_port_witness :
    ∃ reg, (InitConsul World.allOk "" "miner" "10.0.0.5:9090").calls
        = [Call.NewClient "http://127.0.0.1:8500", Call.ServiceRegister reg] ∧
      reg.ID = "miner-10.0.0.5-9090" :=
  (C3_bootstrap_host_port World.allOk "" "miner" "10.0.0.5" 9090 (by decide) (by decide)).2.2.2.2.2.2
    "http://127.0.0.1:8500" "node-1" ["GeForce RTX 3090", "GeForce RTX 3080"] 17179869184
    rfl (by decide) rfl rfl rfl rfl rfl

/-! ## C5: no registry URL -/

/-- C5 fails as stated: without a URL, passed or in the environment,
`NewServiceDiscovery` does not return an error, it panics. -/
theorem C5_creation_panics :
    NewServiceDiscovery World.noUrl "miner" "10.0.0.5" 9090 10 10 "ok" ""
        = ⟨Status.panicked "CONSUL_RUL env is required", []⟩ ∧
      ¬ ∃ err, (NewServiceDiscovery World.noUrl "miner" "10.0.0.5" 9090 10 10 "ok" "").status
        = Status.returned (Except.error err) := by
  have h : NewServiceDiscovery World.noUrl "miner" "10.0.0.5" 9090 10 10 "ok" ""
      = ⟨Status.panicked "CONSUL_RUL env is required", []⟩ := rfl
  refine ⟨h, ?_⟩
  rintro ⟨err, herr⟩
  rw [h] at herr
  cases herr

/-- C5, amended: when `NewServiceDiscovery` is called with `consulUrl = ""` and
`CONSUL_RUL` is unset or empty, it panics with `CONSUL_RUL env is required`: it
returns neither an error nor a `ServiceDiscovery`, no client is opened, and its caller,
the bootstrap, makes no call either and goes on to no registration: it has exited with
status 1 on its `ipPort` or it ends in that panic. -/
theorem C5_no_registry_url (w : World) (serverName listenAddr : String)
    (listenPort interval deRegister : Nat) (endPoint : String)
    (henv : w.Getenv CONSUL_RUL = "") :
    NewServiceDiscovery w serverName listenAddr listenPort interval deRegister endPoint ""
        = ⟨Status.panicked "CONSUL_RUL env is required", []⟩ ∧
      ∀ serviceName ipPort,
        InitConsul w "" serviceName ipPort = ⟨Status.exited 1, []⟩ ∨
        InitConsul w "" serviceName ipPort
          = ⟨Status.panicked "CONSUL_RUL env is required", []⟩ := by
  refine ⟨NewServiceDiscovery_no_url _ _ _ _ _ _ _ henv, ?_⟩
  intro serviceName ipPort
  unfold InitConsul
  split
  · split
    · exact Or.inl rfl
    · right
      simp [InitConsul.register, NewServiceDiscovery_no_url _ _ _ _ _ _ _ henv, Run.bind]
  · exact Or.inl rfl

/-- C5 in `World.noUrl`: the bootstrap on a well-formed `ipPort` ends in the panic
and has made no call. -/
theorem C5_no_registry_url_witness :
    NewServiceDiscovery World.noUrl "miner" "10.0.0.5" 9090 10 10 "ok" ""
        = ⟨Status.panicked "CONSUL_RUL env is required", []⟩ ∧
      (InitConsul World.noUrl "" "miner" "10.0.0.5:9090").calls = [] :=
  have h := C5_no_registry_url World.noUrl "miner" "10.0.0.5" 9090 10 10 "ok" rfl
  ⟨h.1, (h.2 "miner" "10.0.0.5:9090").elim (fun e => e ▸ rfl) (fun e => e ▸ rfl)⟩

/-! ## What an accepted `ipPort` looks like -/

theorem splitOnChar_one (sep : Char) (l b : List Char) (h : splitOnChar sep l = [b]) :
    l = b ∧ sep ∉ l := by
  have hl := splitOnChar_length sep l
  rw [h] at hl
  have hc : l.count sep = 0 := by simpa using hl.symm
  have hmem : sep ∉ l := List.count_eq_zero.mp hc
  rw [splitOnChar_of_not_mem sep l hmem] at h
  exact ⟨by simpa using h, hmem⟩

theorem splitOnChar_two (sep : Char) (l a b : List Char) (h : splitOnChar sep l = [a, b]) :
    l = a ++ sep :: b ∧ sep ∉ a ∧ sep ∉ b := by
  induction l generalizing a with
  | nil => simp [splitOnChar] at h
  | cons c cs ih =>
    simp only [splitOnChar] at h
    by_cases hc : c = sep
    · rw [if_pos hc] at h
      simp only [List.cons.injEq] at h
      obtain ⟨ha, hb⟩ := h
      obtain ⟨hcs, hmem⟩ := splitOnChar_one sep cs b hb
      subst ha hc hcs
      exact ⟨rfl, by simp, hmem⟩
    · rw [if_neg hc] at h
      cases hs : splitOnChar sep cs with
      | nil => exact absurd hs (splitOnChar_ne_nil sep cs)
      | cons q qs =>
        rw [hs] at h
        simp only [List.cons.injEq] at h
        obtain ⟨ha, hb⟩ := h
        subst ha hb
        obtain ⟨h1, h2, h3⟩ := ih q hs
        refine ⟨by rw [h1]; rfl, ?_, h3⟩
        intro hm
        rcases List.mem_cons.mp hm with e | e
        · exact hc e.symm
        · exact h2 e

theorem Split_two (s a b : String) (h : strings.Split s ':' = [a, b]) :
    s = a ++ ":" ++ b ∧ ':' ∉ a.data ∧ ':' ∉ b.data := by
  unfold strings.Split at h
  cases hs : splitOnChar ':' s.data with
  | nil => simp [hs] at h
  | cons x xs =>
    cases xs with
    | nil => simp [hs] at h
    | cons y ys =>
      cases ys with
      | cons z zs => simp [hs] at h
      | nil =>
        rw [hs] at h
        simp only [List.map_cons, List.map_nil, List.cons.injEq, and_true] at h
        obtain ⟨ha, hb⟩ := h
        subst ha hb
        obtain ⟨h1, h2, h3⟩ := splitOnChar_two ':' s.data x y hs
        refine ⟨?_, h2, h3⟩
        apply String.ext
        simp [String.data_append, h1]

theorem parseDigits_isDigit (ds : List Char) (acc n : Nat) (h : parseDigits ds acc = some n) :
    ∀ c ∈ ds, c.isDigit = true := by
  induction ds generalizing acc with
  | nil => simp
  | cons d ds ih =>
    simp only [parseDigits] at h
    by_cases hd : d.isDigit = true
    · rw [if_pos hd] at h
      intro c hc
      rcases List.mem_cons.mp hc with e | e
      · exact e ▸ hd
      · exact ih _ h c e
    · rw [if_neg hd] at h
      cases h

theorem parseUnsigned_isDigit (ds : List Char) (n : Nat) (h : parseUnsigned ds = Except.ok n) :
    ∀ c ∈ ds, c.isDigit = true := by
  unfold parseUnsigned at h
  split at h
  · cases h
  · cases hp : parseDigits ds 0 with
    | none => simp [hp] at h
    | some m => exact parseDigits_isDigit ds 0 m hp

/-- What `strconv.Atoi` accepts has no colon and a value in the range of `int`. -/
theorem Atoi_ok (t : String) (p : Int) (h : strconv.Atoi t = Except.ok p) :
    ':' ∉ t.data ∧ -2 ^ 63 ≤ p ∧ p < 2 ^ 63 := by
  unfold strconv.Atoi at h
  split at h
  · rename_i ds hds
    cases hu : parseUnsigned ds with
    | error e => simp [hu] at h
    | ok n =>
      simp only [hu] at h
      split at h
      · rename_i hn
        simp only [Except.ok.injEq] at h
        subst h
        refine ⟨?_, by omega, by omega⟩
        rw [hds]
        intro hm
        rcases List.mem_cons.mp hm with e | e
        · exact absurd e (by decide)
        · exact absurd (parseUnsigned_isDigit ds n hu _ e) (by decide)
      · cases h
  · rename_i ds hds
    cases hu : parseUnsigned ds with
    | error e => simp [hu] at h
    | ok n =>
      simp only [hu] at h
      split at h
      · rename_i hn
        simp only [Except.ok.injEq] at h
        subst h
        refine ⟨?_, by omega, by omega⟩
        rw [hds]
        intro hm
        rcases List.mem_cons.mp hm with e | e
        · exact absurd e (by decide)
        · exact absurd (parseUnsigned_isDigit ds n hu _ e) (by decide)
      · cases h
  · cases hu : parseUnsigned t.data with
    | error e => simp [hu] at h
    | ok n =>
      simp only [hu] at h
      split at h
      · rename_i hn
        simp only [Except.ok.injEq] at h
        subst h
        refine ⟨?_, by omega, by omega⟩
        intro hm
        exact absurd (parseUnsigned_isDigit _ n hu _ hm) (by decide)
      · cases h

theorem uint64_cast (p : Int) : ((uint64 p : Nat) : Int) = p % 2 ^ 64 := by
  unfold uint64
  exact Int.toNat_of_nonneg (Int.emod_nonneg _ (by norm_num))

theorem int64_uint64 (p : Int) (h0 : -2 ^ 63 ≤ p) (h1 : p < 2 ^ 63) :
    int64 (uint64 p : Nat) = p := by
  rw [uint64_cast]
  unfold int64
  rw [Int.emod_emod_of_dvd _ (dvd_refl _)]
  split <;> omega

/-! ## C10: the port through the conversions -/

/-- C10 fails as stated: the bootstrap accepts the port text `-1`; `strconv.Atoi`
returns -1, the `ListenPort` stored is 18446744073709551615, which is what the ID and
the health-check URL print, while the `Port` field is -1; and it accepts `70000`,
which is no 16-bit port. -/
theorem C10_negative_port :
    strconv.Atoi "-1" = Except.ok (-1) ∧
      uint64 (-1) = 18446744073709551615 ∧
      (InitConsul World.allOk "" "miner" "10.0.0.5:-1").calls
        = [Call.NewClient "http://127.0.0.1:8500",
            Call.ServiceRegister { minerRegistration with
              ID := "miner-10.0.0.5-18446744073709551615"
              Port := -1
              Check := { minerRegistration.Check with
                HTTP := "http://10.0.0.5:18446744073709551615/ok" } }] ∧
      strconv.Atoi "70000" = Except.ok 70000 ∧
      (InitConsul World.allOk "" "miner" "10.0.0.5:70000").calls
        = [Call.NewClient "http://127.0.0.1:8500",
            Call.ServiceRegister { minerRegistration with
              ID := "miner-10.0.0.5-70000"
              Port := 70000
              Check := { minerRegistration.Check with HTTP := "http://10.0.0.5:70000/ok" } }] ∧
      ¬ ((70000 : Int) ≤ 65535) := by
  refine ⟨rfl, by decide, by decide, rfl, by decide, by decide⟩

/-- C10, amended: for every `ipPort` the bootstrap accepts, `host:text` with one `:`
and `strconv.Atoi text = p`, with `p` not negative, `p` is below `2 ^ 63` (no narrower
range is enforced), the bootstrap goes on with `host` and `p`, the `ListenPort`
stored is `p`, and every registration submitted has the `Port` field `p` and prints
`p` in decimal in its ID and in its health-check URL; one is submitted when the client
opens and the metadata can be read. -/
theorem C10_port_conversions (w : World) (consulUrl serviceName host text : String) (p : Int)
    (hh : ':' ∉ host.data) (hp : strconv.Atoi text = Except.ok p) (hsign : 0 ≤ p) :
    p < 2 ^ 63 ∧
      InitConsul w consulUrl serviceName (host ++ ":" ++ text)
        = InitConsul.register w consulUrl serviceName host p ∧
      ((uint64 p : Nat) : Int) = p ∧
      (∀ reg, Call.ServiceRegister reg
          ∈ (InitConsul w consulUrl serviceName (host ++ ":" ++ text)).calls →
        reg.Port = p ∧
        reg.ID = serviceName ++ "-" ++ host ++ "-" ++ Nat.repr p.toNat ∧
        reg.Check.HTTP = "http://" ++ host ++ ":" ++ Nat.repr p.toNat ++ "/" ++ "ok") ∧
      (∀ u hostname gpus total,
          (if consulUrl = "" then w.Getenv CONSUL_RUL else consulUrl) = u → u ≠ "" →
          w.NewClient u = none → w.Hostname = Except.ok hostname →
          w.GetGPUDevices = Except.ok gpus → w.Host = none → w.Memory = Except.ok total →
          ∃ reg, (InitConsul w consulUrl serviceName (host ++ ":" ++ text)).calls
            = [Call.NewClient u, Call.ServiceRegister reg]) := by
  obtain ⟨ht, h0, h1⟩ := Atoi_ok text p hp
  have hparsed := InitConsul_parsed w consulUrl serviceName host text p hh ht hp
  have hcast : ((uint64 p : Nat) : Int) = p := by
    rw [uint64_cast]
    exact Int.emod_eq_of_lt hsign (by omega)
  have hnat : uint64 p = p.toNat := by
    have := congrArg Int.toNat hcast
    simpa using this
  refine ⟨h1, hparsed, hcast, ?_, ?_⟩
  · intro reg hreg
    rw [hparsed] at hreg
    obtain ⟨u, hcall⟩ := register_call w consulUrl serviceName host p reg hreg
    obtain ⟨_, _, _, _, _, _, _, hr, _⟩ := ServiceRegistr_call w _ reg hcall
    subst hr
    rw [← hnat]
    refine ⟨?_, Sprintf_id _ _ _, Sprintf_http _ _ _⟩
    dsimp only
    exact int64_uint64 p h0 h1
  · intro u hostname gpus total hu hne hnew hhost hg hho hm
    rw [hparsed]
    exact register_submits w consulUrl serviceName host p u hostname gpus total hu hne hnew
      hhost hg hho hm

/-- C10 on the signed port text `+80`: the bootstrap goes on with the port 80, and
the `ListenPort` stored is 80. -/
theorem C10_port_conversions_witness :
    InitConsul World.allOk "" "miner" "10.0.0.5:+80"
        = InitConsul.register World.allOk "" "miner" "10.0.0.5" 80 ∧
      ((uint64 80 : Nat) : Int) = 80 :=
  have h := C10_port_conversions World.allOk "" "miner" "10.0.0.5" "+80" 80 (by decide) rfl
    (by decide)
  ⟨h.2.1, h.2.2.1⟩

/-! ## C7: what is checked before a registration -/

/-- C7 fails as stated: with the empty service name and the `ipPort` `:0`, so with the
empty listen address and the port zero, the bootstrap creates the `ServiceDiscovery`,
submits the registration `--0` and returns. -/
theorem C7_empty_fields_registered :
    (InitConsul World.allOk "" "" ":0").status = Status.returned () ∧
      (InitConsul World.allOk "" "" ":0").calls
        = [Call.NewClient "http://127.0.0.1:8500", Call.ServiceRegister emptyRegistration] ∧
      emptyRegistration.ID = "--0" ∧
      (NewServiceDiscovery World.allOk "" "" 0 10 10 "ok" "").status
        = Status.returned (Except.ok
            { ServerName := ""
              ListenAddr := ""
              ListenPort := 0
              Interval := 10
              DeRegister := 10
              ConsulUrl := "http://127.0.0.1:8500"
              EndPoint := "ok"
              consulClient := some "http://127.0.0.1:8500" }) := by
  refine ⟨by decide, by decide, rfl, rfl⟩

/-- C7, amended: whenever the bootstrap attempts a registration, its `ipPort` was
`host:text` with a single `:` and a `text` that `strconv.Atoi` accepts as an integer
`p` (a malformed port never reaches the registry), and the registration carries the
service name, `host` and `p` as they are; nothing requires them to be non-empty or
non-zero: with a registry URL `u` and a client that opens, `NewServiceDiscovery`
returns the `ServiceDiscovery` of its arguments for every name, address and port. -/
theorem C7_registration_attempted (w : World) (consulUrl serviceName ipPort : String) :
    (∀ reg, Call.ServiceRegister reg ∈ (InitConsul w consulUrl serviceName ipPort).calls →
        ∃ host text p, ipPort = host ++ ":" ++ text ∧ ':' ∉ host.data ∧ ':' ∉ text.data ∧
          strconv.Atoi text = Except.ok p ∧
          reg.Name = serviceName ∧ reg.Address = host ∧ reg.Port = p) ∧
      (∀ u serverName listenAddr listenPort interval deRegister endPoint,
        (if consulUrl = "" then w.Getenv CONSUL_RUL else consulUrl) = u → u ≠ "" →
        w.NewClient u = none →
        NewServiceDiscovery w serverName listenAddr listenPort interval deRegister endPoint
            consulUrl
          = ⟨Status.returned (Except.ok
              { ServerName := serverName
                ListenAddr := listenAddr
                ListenPort := listenPort
                Interval := interval
                DeRegister := deRegister
                ConsulUrl := u
                EndPoint := endPoint
                consulClient := some u }),
            [Call.NewClient u]⟩) := by
  constructor
  · intro reg hreg
    unfold InitConsul at hreg
    split at hreg
    · rename_i ip0 ip1 hs
      obtain ⟨hip, h0, h1⟩ := Split_two ipPort ip0 ip1 hs
      cases hp : strconv.Atoi ip1 with
      | error e => simp [hp] at hreg
      | ok p =>
        simp only [hp] at hreg
        obtain ⟨_, hr0, hr1⟩ := Atoi_ok ip1 p hp
        obtain ⟨u, hcall⟩ := register_call w consulUrl serviceName ip0 p reg hreg
        obtain ⟨_, _, _, _, _, _, _, hr, _⟩ := ServiceRegistr_call w _ reg hcall
        refine ⟨ip0, ip1, p, hip, h0, h1, hp, ?_, ?_, ?_⟩
        · rw [hr]
        · rw [hr]
        · subst hr
          dsimp only
          exact int64_uint64 p hr0 hr1
    · simp at hreg
  · intro u serverName listenAddr listenPort interval deRegister endPoint hu hne hnew
    have hrun := NewServiceDiscovery_url w serverName listenAddr listenPort interval deRegister
      endPoint consulUrl u hu hne
    rw [hnew] at hrun
    exact hrun

/-- C7 on the `ipPort` `:0` with the empty service name: the registration attempted
comes from an `ipPort` of the form `host:text`. -/
theorem C7_registration_attempted_witness :
    ∃ host text p, ":0" = host ++ ":" ++ text ∧ ':' ∉ host.data ∧ ':' ∉ text.data ∧
      strconv.Atoi text = Except.ok p ∧
      emptyRegistration.Name = "" ∧ emptyRegistration.Address = host ∧
      emptyRegistration.Port = p :=
  (C7_registration_attempted World.allOk "" "" ":0").1 emptyRegistration (by decide)

/-! ## C6: `GetKey` on an absent key and on an empty value -/

/-- An entry with a zero-length value makes `GetKey` return the error
`kvPair value len is 0`, with the caller's result as it was and without decoding. -/
theorem GetKey_empty_value {ρ : Type} (w : World) (unmarshal : List UInt8 → ρ → ρ × Option Error)
    (s : ServiceDiscovery) (client key : String) (result : ρ) (pair : KVPair)
    (hc : s.consulClient = some client) (hget : w.KVGet key = Except.ok (some pair))
    (hlen : pair.Value = []) :
    ServiceDiscovery.GetKey w unmarshal s key result
      = ⟨Status.returned (result, some (Error.msg "kvPair value len is 0")), [Call.KVGet key]⟩ := by
  simp [ServiceDiscovery.GetKey, hc, hget, hlen]

/-- An absent key, a lookup that succeeds with a nil entry, makes `GetKey` panic. -/
theorem GetKey_absent {ρ : Type} (w : World) (unmarshal : List UInt8 → ρ → ρ × Option Error)
    (s : ServiceDiscovery) (client key : String) (result : ρ)
    (hc : s.consulClient = some client) (hget : w.KVGet key = Except.ok none) :
    ServiceDiscovery.GetKey w unmarshal s key result
      = ⟨Status.panicked nilPointer, [Call.KVGet key]⟩ := by
  simp [ServiceDiscovery.GetKey, hc, hget]

/-- C6 at the failing input: in `World.allOk`, whose registry holds no entry, `GetKey`
on `miner/config` does not return an error, it panics on the nil entry; in
`World.emptyValues` it returns the error `kvPair value len is 0` and the caller's
result is as it was. -/
theorem C6_absent_key_panics :
    ServiceDiscovery.GetKey World.allOk (fun value _ => (value, none)) minerSD "miner/config" []
        = ⟨Status.panicked nilPointer, [Call.KVGet "miner/config"]⟩ ∧
      ServiceDiscovery.GetKey World.emptyValues (fun value _ => (value, none)) minerSD
          "miner/config" [1, 2]
        = ⟨Status.returned ([1, 2], some (Error.msg "kvPair value len is 0")),
            [Call.KVGet "miner/config"]⟩ :=
  ⟨GetKey_absent World.allOk _ minerSD _ "miner/config" [] rfl rfl,
    GetKey_empty_value World.emptyValues _ minerSD _ "miner/config" [1, 2] _ rfl rfl rfl⟩

/-! ## C9: when the composite identity tells instances apart -/

theorem append_sep_left {α : Type} (sep : α) (x y u v : List α) (hx : sep ∉ x) (hu : sep ∉ u)
    (h : x ++ sep :: y = u ++ sep :: v) : x = u ∧ y = v := by
  induction x generalizing u with
  | nil =>
    cases u with
    | nil => simpa using h
    | cons c cs =>
      simp only [List.nil_append, List.cons_append, List.cons.injEq] at h
      exact absurd (h.1 ▸ List.mem_cons_self _ _) hu
  | cons a as ih =>
    cases u with
    | nil =>
      simp only [List.nil_append, List.cons_append, List.cons.injEq] at h
      exact absurd (h.1 ▸ List.mem_cons_self _ _) hx
    | cons c cs =>
      simp only [List.cons_append, List.cons.injEq] at h
      obtain ⟨h1, h2⟩ := ih cs (fun e => hx (List.mem_cons_of_mem _ e))
        (fun e => hu (List.mem_cons_of_mem _ e)) h.2
      exact ⟨by rw [h.1, h1], h2⟩

theorem append_sep_right {α : Type} (sep : α) (x y u v : List α) (hy : sep ∉ y) (hv : sep ∉ v)
    (h : x ++ sep :: y = u ++ sep :: v) : x = u ∧ y = v := by
  have hr : y.reverse ++ sep :: x.reverse = v.reverse ++ sep :: u.reverse := by
    have := congrArg List.reverse h
    simpa using this
  obtain ⟨h1, h2⟩ := append_sep_left sep _ _ _ _ (by simpa using hy) (by simpa using hv) hr
  exact ⟨List.reverse_injective h2, List.reverse_injective h1⟩

/-- C9 fails as stated: the service `node-exporter` on `gpu-01` and the service `node`
on `exporter-gpu-01`, both on port 9090, are registered and deregistered under the
same identity `node-exporter-gpu-01-9090`. -/
theorem C9_identity_collision :
    (ServiceDiscovery.ServiceDeregister World.allOk exporterSD).calls
        = [Call.ServiceDeregister "node-exporter-gpu-01-9090"] ∧
      (ServiceDiscovery.ServiceDeregister World.allOk nodeSD).calls
        = [Call.ServiceDeregister "node-exporter-gpu-01-9090"] ∧
      fmt.Sprintf "%s-%s-%d" [Arg.str "node-exporter", Arg.str "gpu-01", Arg.uint 9090]
        = fmt.Sprintf "%s-%s-%d" [Arg.str "node", Arg.str "exporter-gpu-01", Arg.uint 9090] ∧
      ¬ (("node-exporter", "gpu-01", 9090) = ("node", "exporter-gpu-01", 9090)) := by
  refine ⟨by decide, by decide, by decide, by decide⟩

/-- C9, amended: when two triples get the same composite identity, they have the same
port and the same text `serverName-listenAddr`; they are the same triple when neither
listen address contains `-` (as for IP addresses), and also when neither server name
contains `-`. -/
theorem C9_identity_injective (serverName listenAddr serverName2 listenAddr2 : String)
    (listenPort listenPort2 : Nat)
    (h : fmt.Sprintf "%s-%s-%d" [Arg.str serverName, Arg.str listenAddr, Arg.uint listenPort]
      = fmt.Sprintf "%s-%s-%d" [Arg.str serverName2, Arg.str listenAddr2, Arg.uint listenPort2]) :
    listenPort = listenPort2 ∧
      serverName ++ "-" ++ listenAddr = serverName2 ++ "-" ++ listenAddr2 ∧
      ((('-' ∉ listenAddr.data ∧ '-' ∉ listenAddr2.data) ∨
          ('-' ∉ serverName.data ∧ '-' ∉ serverName2.data)) →
        serverName = serverName2 ∧ listenAddr = listenAddr2) := by
  rw [Sprintf_id, Sprintf_id] at h
  have hd := congrArg String.data h
  simp only [String.data_append, repr_data] at hd
  have hd2 : (serverName.data ++ '-' :: listenAddr.data) ++ '-' :: Nat.toDigits 10 listenPort
      = (serverName2.data ++ '-' :: listenAddr2.data) ++ '-' :: Nat.toDigits 10 listenPort2 := by
    simpa using hd
  obtain ⟨hpre, hdig⟩ := append_sep_right '-' _ _ _ _
    (not_mem_toDigits _ listenPort (by decide)) (not_mem_toDigits _ listenPort2 (by decide)) hd2
  refine ⟨toDigits_injective _ _ hdig, ?_, ?_⟩
  · apply String.ext
    simpa [String.data_append] using hpre
  · rintro (⟨ha, ha2⟩ | ⟨hn, hn2⟩)
    · obtain ⟨h1, h2⟩ := append_sep_right '-' _ _ _ _ ha ha2 hpre
      exact ⟨String.ext h1, String.ext h2⟩
    · obtain ⟨h1, h2⟩ := append_sep_left '-' _ _ _ _ hn hn2 hpre
      exact ⟨String.ext h1, String.ext h2⟩

/-- C9 on two equal identities of `miner` on `10.0.0.5`, an address without `-`. -/
theorem C9_identity_injective_witness :
    (9090 : Nat) = 9090 ∧ "miner" ++ "-" ++ "10.0.0.5" = "miner" ++ "-" ++ "10.0.0.5" ∧
      ((('-' ∉ "10.0.0.5".data ∧ '-' ∉ "10.0.0.5".data) ∨
          ('-' ∉ "miner".data ∧ '-' ∉ "miner".data)) →
        "miner" = "miner" ∧ "10.0.0.5" = "10.0.0.5") :=
  C9_identity_injective "miner" "10.0.0.5" "miner" "10.0.0.5" 9090 9090 rfl

end Consul
